import Mathlib

/-!
# Verification of the KONG staking-dashboard core

Shallow embedding of the tiering, normalization, aggregation, snapshot-recording
and history-series logic of `KONG_dashboard_app.py` and `scripts/snapshot_daily.py`.
Stake amounts and summary figures are modelled as rationals (`ℚ`), wallet
identifiers and ISO dates as `String`s, pandas missing values (`NaN`) as
`Option`, and dataframes as lists of records.
-/

namespace KongDash

/-- Tier classifier (`classify_tier` in both source files): five half-open
bands over stake amounts. -/
def classify_tier (x : ℚ) : ℕ :=
  if x < 25000 then 0
  else if x < 62500 then 1
  else if x < 125000 then 2
  else if x < 250000 then 3
  else 4

/-- A raw `stakedAmount` cell of one leaderboard entry: a JSON number, a JSON
string, JSON `null`, or a missing key (pandas `NaN`). -/
inductive RawVal where
  | num (q : ℚ)
  | str (s : String)
  | null
  | missing
deriving DecidableEq

/-- One raw leaderboard entry `{user, stakedAmount}`. -/
structure RawRecord where
  user : String
  stakedAmount : RawVal
deriving DecidableEq

/-- Numeric value of a digit-character list, most significant first. -/
def digitsVal (cs : List Char) : ℕ :=
  cs.foldl (fun acc c => 10 * acc + (c.toNat - 48)) 0

/-- Parse an unsigned decimal numeral (`digits`, `digits.digits`, `.digits`,
`digits.`); anything else fails.  Models the numeric-string grammar accepted by
`pd.to_numeric`. -/
def parseUnsigned (cs : List Char) : Option ℚ :=
  let ip := cs.takeWhile (fun c => c.isDigit)
  let rest := cs.dropWhile (fun c => c.isDigit)
  match rest with
  | [] => if ip.isEmpty then none else some (digitsVal ip : ℚ)
  | c :: fr =>
    if c = '.' then
      let fp := fr.takeWhile (fun d => d.isDigit)
      let rest2 := fr.dropWhile (fun d => d.isDigit)
      if rest2.isEmpty && !(ip.isEmpty && fp.isEmpty) then
        some ((digitsVal ip : ℚ) + (digitsVal fp : ℚ) / (10 : ℚ) ^ fp.length)
      else none
    else none

/-- Parse a signed decimal string. -/
def parseDecimalStr (s : String) : Option ℚ :=
  match s.toList with
  | '-' :: cs => (parseUnsigned cs).map (fun q => -q)
  | '+' :: cs => parseUnsigned cs
  | cs => parseUnsigned cs

/-- `pd.to_numeric(v, errors="coerce")` on one cell: numbers pass through,
parsable strings are parsed, everything else becomes `NaN` (here `none`). -/
def to_numeric_coerce : RawVal → Option ℚ
  | RawVal.num q => some q
  | RawVal.str s => parseDecimalStr s
  | RawVal.null => none
  | RawVal.missing => none

/-- Normalized wallet record (`WalletStakeRecord` of the spec): coerced stake
plus derived tier. -/
structure WalletStakeRecord where
  user : String
  stakedAmount : ℚ
  tier : ℕ
deriving DecidableEq

/-- Coerced stake of one cell: `.fillna(0.0)` after `to_numeric`. -/
def normAmount (v : RawVal) : ℚ := (to_numeric_coerce v).getD 0

/-- Normalization of one leaderboard entry: coerce the stake, attach the tier
(lines 45-46 of `KONG_dashboard_app.py`, lines 41/49 of `snapshot_daily.py`). -/
def normRecord (r : RawRecord) : WalletStakeRecord :=
  { user := r.user
    stakedAmount := normAmount r.stakedAmount
    tier := classify_tier (normAmount r.stakedAmount) }

/-- `fetch_leaderboard`'s dataframe construction: normalize every raw entry,
preserving order. -/
def fetch_leaderboard (rows : List RawRecord) : List WalletStakeRecord :=
  rows.map normRecord

/-! ## C1: tier classification -/

/-- The five tier-interval characterizations, plus the range bound. -/
lemma classify_tier_cases (x : ℚ) (hx : 0 ≤ x) :
    classify_tier x ≤ 4 ∧
    (classify_tier x = 0 ↔ 0 ≤ x ∧ x < 25000) ∧
    (classify_tier x = 1 ↔ 25000 ≤ x ∧ x < 62500) ∧
    (classify_tier x = 2 ↔ 62500 ≤ x ∧ x < 125000) ∧
    (classify_tier x = 3 ↔ 125000 ≤ x ∧ x < 250000) ∧
    (classify_tier x = 4 ↔ 250000 ≤ x) := by
  unfold classify_tier
  split_ifs with h1 h2 h3 h4 <;>
    refine ⟨by norm_num, ?_, ?_, ?_, ?_, ?_⟩ <;>
    constructor <;> intro h <;>
    first | exact h.elim | omega | (constructor <;> linarith) | linarith

/-- The claim's five boundary evaluations. -/
lemma classify_tier_boundary :
    classify_tier (24999.99 : ℚ) = 0 ∧ classify_tier 25000 = 1 ∧
    classify_tier 62500 = 2 ∧ classify_tier 125000 = 3 ∧
    classify_tier 250000 = 4 := by
  refine ⟨?_, ?_, ?_, ?_, ?_⟩ <;> · unfold classify_tier; norm_num

/-- **C1.** For every non-negative `x`, `classify_tier x` is one of
`{0,1,2,3,4}`, the five tiers are exactly the contiguous half-open intervals
`[0,25000)`, `[25000,62500)`, `[62500,125000)`, `[125000,250000)`,
`[250000,∞)` (so they exhaust `[0,∞)`), and the five boundary evaluations of
the claim hold. -/
theorem classify_tier_spec (x : ℚ) (hx : 0 ≤ x) :
    classify_tier x ≤ 4 ∧
    (classify_tier x = 0 ↔ 0 ≤ x ∧ x < 25000) ∧
    (classify_tier x = 1 ↔ 25000 ≤ x ∧ x < 62500) ∧
    (classify_tier x = 2 ↔ 62500 ≤ x ∧ x < 125000) ∧
    (classify_tier x = 3 ↔ 125000 ≤ x ∧ x < 250000) ∧
    (classify_tier x = 4 ↔ 250000 ≤ x) ∧
    classify_tier (24999.99 : ℚ) = 0 ∧
    classify_tier 25000 = 1 ∧
    classify_tier 62500 = 2 ∧
    classify_tier 125000 = 3 ∧
    classify_tier 250000 = 4 :=
  ⟨(classify_tier_cases x hx).1, (classify_tier_cases x hx).2.1,
   (classify_tier_cases x hx).2.2.1, (classify_tier_cases x hx).2.2.2.1,
   (classify_tier_cases x hx).2.2.2.2.1, (classify_tier_cases x hx).2.2.2.2.2,
   classify_tier_boundary.1, classify_tier_boundary.2.1, classify_tier_boundary.2.2.1,
   classify_tier_boundary.2.2.2.1, classify_tier_boundary.2.2.2.2⟩

/-- Witness for C1 at `x = 25000`. -/
theorem classify_tier_spec_witness :
    classify_tier (25000 : ℚ) = 1 ↔ (25000 : ℚ) ≤ 25000 ∧ (25000 : ℚ) < 62500 :=
  (classify_tier_spec 25000 (by norm_num)).2.2.1

/-! ## C2: normalization -/

/-- **C2 counterexample.** A raw record whose `stakedAmount` is the (parsable)
number `-1` normalizes to a *negative* stake, refuting "normalization produces
a stakedAmount that is a non-negative … decimal". -/
theorem normalize_nonneg_counterexample :
    (normRecord { user := "u", stakedAmount := RawVal.num (-1) }).stakedAmount < 0 := by
  norm_num [normRecord, normAmount, to_numeric_coerce]

/-- **C2 (amended).** Normalization is a total function (never an error): each
output record keeps the parsed value when the raw stake parses, becomes
`0.0` with tier `0` when the raw stake is unparsable, `null`, or missing, and
is non-negative whenever every parse of the raw value is non-negative (in
particular the raw string `"not-a-number"` is unparsable and `"30000"` parses
to `30000`). -/
theorem normalize_amended (r : RawRecord) :
    (fetch_leaderboard [r] = [normRecord r]) ∧
    (to_numeric_coerce r.stakedAmount = none →
      (normRecord r).stakedAmount = 0 ∧ (normRecord r).tier = 0) ∧
    (∀ q, to_numeric_coerce r.stakedAmount = some q → (normRecord r).stakedAmount = q) ∧
    ((∀ q, to_numeric_coerce r.stakedAmount = some q → 0 ≤ q) →
      0 ≤ (normRecord r).stakedAmount) ∧
    parseDecimalStr "not-a-number" = none ∧
    to_numeric_coerce (RawVal.str "30000") = some 30000 := by
  refine ⟨rfl, ?_, ?_, ?_, by decide, by decide⟩
  · intro h
    simp [normRecord, normAmount, h, classify_tier]
  · intro q h
    simp [normRecord, normAmount, h]
  · intro h
    cases hc : to_numeric_coerce r.stakedAmount with
    | none => simp [normRecord, normAmount, hc]
    | some q =>
        have := h q hc
        simpa [normRecord, normAmount, hc] using this

/-- Witness for C2 on the record `{user := "w", stakedAmount := "not-a-number"}`. -/
theorem normalize_amended_witness :
    (normRecord { user := "w", stakedAmount := RawVal.str "not-a-number" }).stakedAmount = 0 ∧
    (normRecord { user := "w", stakedAmount := RawVal.str "not-a-number" }).tier = 0 :=
  (normalize_amended { user := "w", stakedAmount := RawVal.str "not-a-number" }).2.1
    (by decide)

/-! ## Segmentation (rice / retail / whales) -/

/-- The active view of the dashboard (`df = df_all[df_all["stakedAmount"] > 0]`). -/
def activeRecords (l : List WalletStakeRecord) : List WalletStakeRecord :=
  l.filter (fun w => 0 < w.stakedAmount)

/-- The segmentation step of the dashboard (lines 237-243 of
`KONG_dashboard_app.py`): reject `rice_cutoff >= whale_cutoff` with the
on-screen error message, otherwise produce the three filtered buckets. -/
def segmentActive (l : List WalletStakeRecord) (rice whale : ℚ) :
    Except String (List WalletStakeRecord × List WalletStakeRecord × List WalletStakeRecord) :=
  if whale ≤ rice then
    Except.error "Rice cutoff must be lower than whale cutoff."
  else
    Except.ok
      (l.filter (fun w => w.stakedAmount < rice),
       l.filter (fun w => rice ≤ w.stakedAmount ∧ w.stakedAmount ≤ whale),
       l.filter (fun w => whale < w.stakedAmount))

/-- With `rice < whale`, each record satisfies exactly one of the three bucket
predicates. -/
lemma segment_trichotomy (rice whale : ℚ) (h : rice < whale) (x : ℚ) :
    (x < rice ∧ ¬(rice ≤ x ∧ x ≤ whale) ∧ ¬(whale < x)) ∨
    (¬(x < rice) ∧ (rice ≤ x ∧ x ≤ whale) ∧ ¬(whale < x)) ∨
    (¬(x < rice) ∧ ¬(rice ≤ x ∧ x ≤ whale) ∧ whale < x) := by
  rcases lt_or_le x rice with hlt | hge
  · exact Or.inl ⟨hlt, fun hc => by linarith [hc.1], by intro hc; linarith⟩
  · rcases le_or_lt x whale with hle | hgt
    · exact Or.inr (Or.inl ⟨by linarith, ⟨hge, hle⟩, by intro hc; linarith⟩)
    · exact Or.inr (Or.inr ⟨by linarith, fun hc => by linarith [hc.2], hgt⟩)

/-- With `rice < whale`, the three bucket sizes sum to the size of the input
set. -/
lemma segment_length_partition (l : List WalletStakeRecord) (rice whale : ℚ)
    (h : rice < whale) :
    (l.filter (fun w => w.stakedAmount < rice)).length +
      (l.filter (fun w => rice ≤ w.stakedAmount ∧ w.stakedAmount ≤ whale)).length +
      (l.filter (fun w => whale < w.stakedAmount)).length = l.length := by
  induction l with
  | nil => simp
  | cons a t ih =>
      rcases segment_trichotomy rice whale h a.stakedAmount with
        ⟨h1, h2, h3⟩ | ⟨h1, h2, h3⟩ | ⟨h1, h2, h3⟩ <;>
      · simp only [List.filter_cons, decide_eq_true_eq, h1, h2, h3,
          if_true, if_false, and_self, not_false_eq_true, List.length_cons]
        omega

/-! ## C4 / C5 theorems -/

/-- **C4.** For valid cutoffs (`rice < whale`) segmentation succeeds and
produces the three buckets given by the claim's predicates; their sizes sum to
the size of the active set and they are pairwise disjoint. -/
theorem segmentation_spec (l : List WalletStakeRecord) (rice whale : ℚ)
    (h : rice < whale) :
    ∃ riceL retailL whaleL,
      segmentActive l rice whale = Except.ok (riceL, retailL, whaleL) ∧
      riceL = l.filter (fun w => w.stakedAmount < rice) ∧
      retailL = l.filter (fun w => rice ≤ w.stakedAmount ∧ w.stakedAmount ≤ whale) ∧
      whaleL = l.filter (fun w => whale < w.stakedAmount) ∧
      riceL.length + retailL.length + whaleL.length = l.length ∧
      (∀ w, w ∈ riceL → w ∉ retailL) ∧
      (∀ w, w ∈ riceL → w ∉ whaleL) ∧
      (∀ w, w ∈ retailL → w ∉ whaleL) := by
  refine ⟨_, _, _, ?_, rfl, rfl, rfl, segment_length_partition l rice whale h, ?_, ?_, ?_⟩
  · unfold segmentActive
    rw [if_neg (not_le.mpr h)]
  · intro w hw hw'
    have h1 := (List.mem_filter.mp hw).2
    have h2 := (List.mem_filter.mp hw').2
    simp only [decide_eq_true_eq] at h1 h2
    linarith [h2.1]
  · intro w hw hw'
    have h1 := (List.mem_filter.mp hw).2
    have h2 := (List.mem_filter.mp hw').2
    simp only [decide_eq_true_eq] at h1 h2
    linarith
  · intro w hw hw'
    have h1 := (List.mem_filter.mp hw).2
    have h2 := (List.mem_filter.mp hw').2
    simp only [decide_eq_true_eq] at h1 h2
    linarith [h1.2]

/-- Witness for C4: three records, cutoffs `10/100`. -/
theorem segmentation_spec_witness :
    ∃ riceL retailL whaleL,
      segmentActive
        [⟨"a", 5, 0⟩, ⟨"b", 50, 0⟩, ⟨"c", 500, 0⟩] (10 : ℚ) 100 =
        Except.ok (riceL, retailL, whaleL) ∧
      riceL = List.filter (fun w => w.stakedAmount < 10)
        [⟨"a", 5, 0⟩, ⟨"b", 50, 0⟩, ⟨"c", 500, 0⟩] ∧
      retailL = List.filter (fun w => 10 ≤ w.stakedAmount ∧ w.stakedAmount ≤ 100)
        [⟨"a", 5, 0⟩, ⟨"b", 50, 0⟩, ⟨"c", 500, 0⟩] ∧
      whaleL = List.filter (fun w => 100 < w.stakedAmount)
        [⟨"a", 5, 0⟩, ⟨"b", 50, 0⟩, ⟨"c", 500, 0⟩] ∧
      riceL.length + retailL.length + whaleL.length =
        ([⟨"a", 5, 0⟩, ⟨"b", 50, 0⟩, ⟨"c", 500, 0⟩] :
          List WalletStakeRecord).length ∧
      (∀ w, w ∈ riceL → w ∉ retailL) ∧
      (∀ w, w ∈ riceL → w ∉ whaleL) ∧
      (∀ w, w ∈ retailL → w ∉ whaleL) :=
  segmentation_spec [⟨"a", 5, 0⟩, ⟨"b", 50, 0⟩, ⟨"c", 500, 0⟩] 10 100 (by norm_num)

/-- **C5.** For invalid cutoffs (`rice ≥ whale`) segmentation reports the
validation error and produces no partition at all. -/
theorem segmentation_invalid_cutoffs (l : List WalletStakeRecord) (rice whale : ℚ)
    (h : whale ≤ rice) :
    segmentActive l rice whale =
      Except.error "Rice cutoff must be lower than whale cutoff." ∧
    ∀ buckets, segmentActive l rice whale ≠ Except.ok buckets := by
  constructor
  · unfold segmentActive
    rw [if_pos h]
  · intro buckets hc
    unfold segmentActive at hc
    rw [if_pos h] at hc
    exact Except.noConfusion hc

/-- Witness for C5 at cutoffs `rice = 50000 ≥ whale = 10000`. -/
theorem segmentation_invalid_cutoffs_witness :
    segmentActive [] (50000 : ℚ) 10000 =
      Except.error "Rice cutoff must be lower than whale cutoff." :=
  (segmentation_invalid_cutoffs [] 50000 10000 (by norm_num)).1

/-! ## Generic insertion-sort lemmas (used for the daily-history upsert) -/

section SortLemmas

variable {α : Type*} (r : α → α → Prop) [DecidableRel r]

/-- Short name for repeated insertion: insert every element of `l` into `t`,
rightmost first.  `insertionSort r l = foldIns r l []`. -/
def foldIns (l : List α) (t : List α) : List α :=
  l.foldr (fun x acc => List.orderedInsert r x acc) t

lemma foldIns_nil (t : List α) : foldIns r [] t = t := rfl

lemma foldIns_cons (a : α) (l t : List α) :
    foldIns r (a :: l) t = List.orderedInsert r a (foldIns r l t) := rfl

variable [IsTotal α r] [IsTrans α r]

/-- Two `orderedInsert`s of non-tied elements commute, over any target list. -/
lemma orderedInsert_comm (a b : α) (hab : ¬r a b) :
    ∀ t : List α, List.orderedInsert r a (List.orderedInsert r b t) =
      List.orderedInsert r b (List.orderedInsert r a t) := by
  have hba : r b a := (total_of r a b).resolve_left hab
  intro t
  induction t with
  | nil =>
      simp only [List.orderedInsert, if_neg hab, if_pos hba]
  | cons c t ih =>
      by_cases hbc : r b c
      · by_cases hac : r a c
        · simp only [List.orderedInsert, if_pos hbc, if_neg hab, if_pos hac, if_pos hba]
        · simp only [List.orderedInsert, if_pos hbc, if_neg hab, if_neg hac, if_pos hbc]
      · have hac : ¬r a c := fun hac =>
          hab (Trans.trans hac ((total_of r b c).resolve_left hbc))
        simp only [List.orderedInsert, if_neg hbc, if_neg hac, ih]

/-- Inserting `orderedInsert r a s` element-wise equals inserting `a` after the
elements of `s`. -/
lemma foldIns_orderedInsert (a : α) :
    ∀ s t : List α, foldIns r (List.orderedInsert r a s) t =
      List.orderedInsert r a (foldIns r s t) := by
  intro s
  induction s with
  | nil => intro t; rfl
  | cons b s ih =>
      intro t
      by_cases hab : r a b
      · simp only [List.orderedInsert, if_pos hab, foldIns_cons]
      · simp only [List.orderedInsert, if_neg hab, foldIns_cons, ih,
          orderedInsert_comm r a b hab]

/-- Pre-sorting the inserted list does not change the result of repeated
insertion. -/
lemma foldIns_insertionSort :
    ∀ l t : List α, foldIns r (l.insertionSort r) t = foldIns r l t := by
  intro l
  induction l with
  | nil => intro t; rfl
  | cons a l ih =>
      intro t
      simp only [List.insertionSort, foldIns_orderedInsert, ih, foldIns_cons]

lemma insertionSort_append (l s : List α) :
    (l ++ s).insertionSort r = foldIns r l (s.insertionSort r) := by
  induction l with
  | nil => rfl
  | cons a l ih => simp only [List.cons_append, List.insertionSort, List.append_eq, ih,
      foldIns_cons]

/-- Sorting is unaffected by pre-sorting a front segment. -/
lemma insertionSort_idem_append (l s : List α) :
    ((l.insertionSort r) ++ s).insertionSort r = (l ++ s).insertionSort r := by
  rw [insertionSort_append, foldIns_insertionSort, ← insertionSort_append]

/-- `filter` commutes with `orderedInsert` on a sorted target. -/
lemma filter_orderedInsert (p : α → Bool) (a : α) :
    ∀ s : List α, s.Sorted r →
      (List.orderedInsert r a s).filter p =
        if p a then List.orderedInsert r a (s.filter p) else s.filter p := by
  intro s
  induction s with
  | nil =>
      intro _
      by_cases hpa : p a <;>
        simp [List.orderedInsert, List.filter, hpa]
  | cons b t ih =>
      intro hs
      have hbt : ∀ c ∈ t, r b c := List.rel_of_sorted_cons hs
      have hst : t.Sorted r := hs.of_cons
      by_cases hab : r a b
      · by_cases hpa : p a
        · by_cases hpb : p b
          · simp only [List.orderedInsert, if_pos hab, List.filter_cons, hpa, hpb,
              if_true, if_pos hab]
          · simp only [List.orderedInsert, if_pos hab, List.filter_cons, hpa, hpb,
              if_true, if_false, cond_true, cond_false]
            -- here `a` must still land in front of every kept element of `t`
            cases hft : t.filter p with
            | nil => simp [List.orderedInsert]
            | cons c rest =>
                have hc : c ∈ t := List.mem_of_mem_filter (hft ▸ List.mem_cons_self c rest)
                have hac : r a c := Trans.trans hab (hbt c hc)
                simp [List.orderedInsert, if_pos hac]
        · by_cases hpb : p b <;>
            simp [List.orderedInsert, if_pos hab, List.filter_cons, hpa, hpb]
      · by_cases hpa : p a
        · by_cases hpb : p b <;>
            simp [List.orderedInsert, if_neg hab, List.filter_cons, hpa, hpb,
              ih hst, if_neg hab]
        · by_cases hpb : p b <;>
            simp [List.orderedInsert, if_neg hab, List.filter_cons, hpa, hpb, ih hst]

/-- `filter` commutes with `insertionSort`. -/
lemma filter_insertionSort (p : α → Bool) :
    ∀ l : List α, (l.insertionSort r).filter p = (l.filter p).insertionSort r := by
  intro l
  induction l with
  | nil => rfl
  | cons a l ih =>
      have hs : (l.insertionSort r).Sorted r := List.sorted_insertionSort r l
      by_cases hpa : p a <;>
        simp [List.insertionSort, filter_orderedInsert r p a _ hs, hpa, ih,
          List.filter_cons]

end SortLemmas

/-! ## Daily snapshot rows and the upsert -/

/-- One row of `data/summaries/daily.csv` (`DailySnapshotRow` of the spec);
column order as in `snapshot_daily.py`'s `cols`. -/
structure DailySnapshotRow where
  snapshot_date : String
  total_staked : ℚ
  tvl_usd : ℚ
  percentage_supply : ℚ
  active_wallets : ℕ
  median_stake : ℚ
  max_stake : ℚ
  zero_stake_wallets : ℕ
  tier0 : ℕ
  tier1 : ℕ
  tier2 : ℕ
  tier3 : ℕ
  tier4 : ℕ
deriving DecidableEq

/-- Ascending order on ISO-8601 date strings, as used by
`hist.sort_values("snapshot_date")`. -/
def rowLe (a b : DailySnapshotRow) : Prop :=
  a.snapshot_date ≤ b.snapshot_date

instance : DecidableRel rowLe := fun a b =>
  inferInstanceAs (Decidable (a.snapshot_date ≤ b.snapshot_date))

instance : IsTotal DailySnapshotRow rowLe :=
  ⟨fun a b => le_total a.snapshot_date b.snapshot_date⟩

instance : IsTrans DailySnapshotRow rowLe :=
  ⟨fun _ _ _ h h' => le_trans h h'⟩

/-- `hist.sort_values("snapshot_date")`. -/
def sortByDate (l : List DailySnapshotRow) : List DailySnapshotRow :=
  l.insertionSort rowLe

/-- The upsert of `snapshot_daily.py` lines 78-83: drop today's rows, append
the new row, re-sort ascending by date.  A missing history file is the empty
history, for which this reduces to writing the single new row. -/
def upsertRow (hist : List DailySnapshotRow) (row : DailySnapshotRow) :
    List DailySnapshotRow :=
  sortByDate ((hist.filter (fun x => x.snapshot_date ≠ row.snapshot_date)) ++ [row])

/-- After an upsert, the rows for the upserted date are exactly the new row. -/
lemma upsertRow_filter_today (hist : List DailySnapshotRow) (row : DailySnapshotRow) :
    (upsertRow hist row).filter (fun x => x.snapshot_date = row.snapshot_date) = [row] := by
  unfold upsertRow sortByDate
  rw [filter_insertionSort, List.filter_append]
  have h1 : (hist.filter (fun x => x.snapshot_date ≠ row.snapshot_date)).filter
      (fun x => x.snapshot_date = row.snapshot_date) = [] := by
    rw [List.filter_eq_nil_iff]
    intro x hx
    have := (List.mem_filter.mp hx).2
    simp only [decide_eq_true_eq] at this ⊢
    exact fun he => this he
  have h2 : List.filter (fun x => x.snapshot_date = row.snapshot_date) [row] = [row] := by
    simp [List.filter]
  rw [h1, h2, List.nil_append]
  rfl

/-- Re-running the upsert with the same row is a no-op. -/
lemma upsertRow_idem (hist : List DailySnapshotRow) (row : DailySnapshotRow) :
    upsertRow (upsertRow hist row) row = upsertRow hist row := by
  have hne : (upsertRow hist row).filter (fun x => x.snapshot_date ≠ row.snapshot_date) =
      sortByDate (hist.filter (fun x => x.snapshot_date ≠ row.snapshot_date)) := by
    unfold upsertRow sortByDate
    rw [filter_insertionSort, List.filter_append]
    have h1 : (hist.filter (fun x => x.snapshot_date ≠ row.snapshot_date)).filter
        (fun x => x.snapshot_date ≠ row.snapshot_date) =
        hist.filter (fun x => x.snapshot_date ≠ row.snapshot_date) := by
      rw [List.filter_eq_self]
      intro x hx
      exact (List.mem_filter.mp hx).2
    have h2 : List.filter (fun x => x.snapshot_date ≠ row.snapshot_date) [row] = [] := by
      simp [List.filter]
    rw [h1, h2, List.append_nil]
  conv_lhs => rw [upsertRow, hne]
  unfold sortByDate
  rw [insertionSort_idem_append]
  rfl

/-! ## C3: upsert semantics and idempotence -/

/-- **C3.** The upsert keeps exactly the old rows of other dates plus the new
row (as a permutation), leaves the history sorted ascending by date, leaves
exactly one row — the new one — for the upserted date, and is idempotent:
running it again with the identical row changes nothing. -/
theorem upsert_spec (hist : List DailySnapshotRow) (row : DailySnapshotRow) :
    (upsertRow hist row).Sorted rowLe ∧
    (upsertRow hist row).Perm
      ((hist.filter (fun x => x.snapshot_date ≠ row.snapshot_date)) ++ [row]) ∧
    (upsertRow hist row).filter (fun x => x.snapshot_date = row.snapshot_date) = [row] ∧
    upsertRow (upsertRow hist row) row = upsertRow hist row :=
  ⟨List.sorted_insertionSort rowLe _,
   List.perm_insertionSort rowLe _,
   upsertRow_filter_today hist row,
   upsertRow_idem hist row⟩

/-- An example snapshot row. -/
def exampleSnapshotRow : DailySnapshotRow :=
  { snapshot_date := "2024-01-02", total_staked := 7, tvl_usd := 9,
    percentage_supply := 2, active_wallets := 1, median_stake := 7,
    max_stake := 7, zero_stake_wallets := 0,
    tier0 := 1, tier1 := 0, tier2 := 0, tier3 := 0, tier4 := 0 }

/-- Witness for C3 on the empty history and the example row. -/
theorem upsert_spec_witness :
    (upsertRow [] exampleSnapshotRow).Sorted rowLe ∧
    (upsertRow [] exampleSnapshotRow).Perm
      (([] : List DailySnapshotRow).filter
        (fun x => x.snapshot_date ≠ exampleSnapshotRow.snapshot_date) ++
        [exampleSnapshotRow]) ∧
    (upsertRow [] exampleSnapshotRow).filter
      (fun x => x.snapshot_date = exampleSnapshotRow.snapshot_date) =
      [exampleSnapshotRow] ∧
    upsertRow (upsertRow [] exampleSnapshotRow) exampleSnapshotRow =
      upsertRow [] exampleSnapshotRow :=
  upsert_spec [] exampleSnapshotRow

/-! ## The daily snapshot recorder (`snapshot_daily.py`) -/

/-- The staking-summary payload; every field is optional (`summary.get`). -/
structure StakingSummary where
  totalStaked : Option ℚ
  tvlUsd : Option ℚ
  percentageOfCurrentSupply : Option ℚ
deriving DecidableEq

/-- `series.nunique()`: number of distinct values. -/
def dedupCount (users : List String) : ℕ := users.dedup.length

/-- `series.median()` of a nonempty series: middle element of the sorted
values, or the mean of the two middle elements (`0` for the empty list; the
caller guards emptiness as the source does). -/
def medianQ (l : List ℚ) : ℚ :=
  let s := l.insertionSort (fun a b => a ≤ b)
  if s.length = 0 then 0
  else if s.length % 2 = 1 then s.getD (s.length / 2) 0
  else (s.getD (s.length / 2 - 1) 0 + s.getD (s.length / 2) 0) / 2

/-- `series.max()` of a nonempty series (`0` for the empty list; the caller
guards emptiness as the source does). -/
def maxQ : List ℚ → ℚ
  | [] => 0
  | a :: t => t.foldl max a

/-- Distinct active users in tier `i`
(`active_df.groupby("tier")["user"].nunique()`). -/
def tierCount (active : List WalletStakeRecord) (i : ℕ) : ℕ :=
  dedupCount ((active.filter (fun w => w.tier = i)).map (fun w => w.user))

/-- The snapshot row computed by `snapshot_daily.py` lines 32-69: the
empty-leaderboard branch produces a row of zeros fed only by the summary;
otherwise amounts are coerced, active/zero wallets are counted by distinct
user, and `totalStaked`/`tvlUsd`/`percentageSupply` come from the summary
with fallbacks (the local sum of coerced stakes, `0`, and `0.0`). -/
def buildRow (lb : List RawRecord) (s : StakingSummary) (today : String) :
    DailySnapshotRow :=
  if lb.isEmpty then
    { snapshot_date := today
      total_staked := s.totalStaked.getD 0
      tvl_usd := s.tvlUsd.getD 0
      percentage_supply := s.percentageOfCurrentSupply.getD 0
      active_wallets := 0
      median_stake := 0
      max_stake := 0
      zero_stake_wallets := 0
      tier0 := 0, tier1 := 0, tier2 := 0, tier3 := 0, tier4 := 0 }
  else
    let df := lb.map normRecord
    let active := df.filter (fun w => 0 < w.stakedAmount)
    let amounts := active.map (fun w => w.stakedAmount)
    { snapshot_date := today
      total_staked := s.totalStaked.getD ((df.map (fun w => w.stakedAmount)).sum)
      tvl_usd := s.tvlUsd.getD 0
      percentage_supply := s.percentageOfCurrentSupply.getD 0
      active_wallets := dedupCount (active.map (fun w => w.user))
      median_stake := if active.isEmpty then 0 else medianQ amounts
      max_stake := if active.isEmpty then 0 else maxQ amounts
      zero_stake_wallets :=
        dedupCount ((df.filter (fun w => w.stakedAmount ≤ 0)).map (fun w => w.user))
      tier0 := tierCount active 0
      tier1 := tierCount active 1
      tier2 := tierCount active 2
      tier3 := tierCount active 3
      tier4 := tierCount active 4 }

/-- The whole recorder run: compute today's row and upsert it into the
history (an absent history file is the empty history). -/
def snapshot_daily (lb : List RawRecord) (s : StakingSummary) (today : String)
    (hist : List DailySnapshotRow) : List DailySnapshotRow :=
  upsertRow hist (buildRow lb s today)

/-- The local fallback total the spec describes: the sum of the coerced
stake amounts of the leaderboard.  (Spec-side definition, for comparison with
the code's fallbacks.) -/
def localStakedSum (lb : List RawRecord) : ℚ :=
  ((lb.map normRecord).map (fun w => w.stakedAmount)).sum

/-! ## C7: summary-field fallbacks -/

/-- **C7 counterexample.** With a leaderboard whose coerced stakes sum to
`100` and a summary that lacks `tvlUsd`, the recorded `tvl_usd` is the
constant `0`, not a sum derived from the leaderboard — refuting "for each
field that is missing from the summary it falls back to a locally computed
sum derived from the leaderboard". -/
theorem summary_fallback_counterexample :
    (buildRow [{ user := "a", stakedAmount := RawVal.num 100 }]
        { totalStaked := some 5, tvlUsd := none, percentageOfCurrentSupply := none }
        "2024-01-01").tvl_usd = 0 ∧
    localStakedSum [{ user := "a", stakedAmount := RawVal.num 100 }] = 100 ∧
    (0 : ℚ) ≠ 100 := by
  refine ⟨?_, ?_, by norm_num⟩
  · rfl
  · norm_num [localStakedSum, normRecord, normAmount, to_numeric_coerce]

/-- **C7 (amended).** The recorder reads `totalStaked`, `tvlUsd` and
`percentageOfCurrentSupply` preferentially from the summary; when missing,
`totalStaked` falls back to the locally computed sum of the coerced stakes
(`0` for an empty leaderboard) while `tvlUsd` and `percentageSupply` fall back
to the constants `0` and `0.0`; no combination of missing fields fails the
snapshot. -/
theorem summary_fallback_spec (lb : List RawRecord) (s : StakingSummary)
    (today : String) :
    (∀ t, s.totalStaked = some t → (buildRow lb s today).total_staked = t) ∧
    (s.totalStaked = none →
      (buildRow lb s today).total_staked = if lb.isEmpty then 0 else localStakedSum lb) ∧
    (∀ v, s.tvlUsd = some v → (buildRow lb s today).tvl_usd = v) ∧
    (s.tvlUsd = none → (buildRow lb s today).tvl_usd = 0) ∧
    (∀ p, s.percentageOfCurrentSupply = some p →
      (buildRow lb s today).percentage_supply = p) ∧
    (s.percentageOfCurrentSupply = none → (buildRow lb s today).percentage_supply = 0) := by
  unfold buildRow localStakedSum
  by_cases hlb : lb.isEmpty <;>
    simp [hlb] <;>
    refine ⟨fun t ht => by simp [ht], fun ht => by simp [ht], fun v hv => by simp [hv],
      fun hv => by simp [hv], fun p hp => by simp [hp], fun hp => by simp [hp]⟩

/-- Witness for C7: empty summary over a one-record leaderboard. -/
theorem summary_fallback_spec_witness :
    (buildRow [{ user := "a", stakedAmount := RawVal.num 100 }]
        { totalStaked := none, tvlUsd := none, percentageOfCurrentSupply := none }
        "2024-01-01").total_staked =
      if ([{ user := "a", stakedAmount := RawVal.num 100 }] : List RawRecord).isEmpty
      then 0 else localStakedSum [{ user := "a", stakedAmount := RawVal.num 100 }] :=
  (summary_fallback_spec [{ user := "a", stakedAmount := RawVal.num 100 }]
    { totalStaked := none, tvlUsd := none, percentageOfCurrentSupply := none }
    "2024-01-01").2.1 rfl

/-! ## C9: empty leaderboard -/

/-- **C9.** An empty leaderboard is not an error: the recorder still builds a
complete row for today — zero active wallets, median, max, zero-stake count
and tier counts, with `totalStaked`/`tvlUsd`/`percentageSupply` taken from the
summary or defaulting to `0` — and upserts it, so the history afterwards has
exactly that row for today. -/
theorem empty_leaderboard_spec (s : StakingSummary) (today : String)
    (hist : List DailySnapshotRow) :
    buildRow [] s today =
      { snapshot_date := today
        total_staked := s.totalStaked.getD 0
        tvl_usd := s.tvlUsd.getD 0
        percentage_supply := s.percentageOfCurrentSupply.getD 0
        active_wallets := 0
        median_stake := 0
        max_stake := 0
        zero_stake_wallets := 0
        tier0 := 0, tier1 := 0, tier2 := 0, tier3 := 0, tier4 := 0 } ∧
    (snapshot_daily [] s today hist).filter
      (fun x => x.snapshot_date = today) = [buildRow [] s today] := by
  constructor
  · rfl
  · have h := upsertRow_filter_today hist (buildRow [] s today)
    have hd : (buildRow [] s today).snapshot_date = today := rfl
    rw [snapshot_daily, ← hd]
    exact h

/-- A summary payload with every field absent. -/
def emptySummary : StakingSummary :=
  { totalStaked := none, tvlUsd := none, percentageOfCurrentSupply := none }

/-- The row C9 predicts for an empty leaderboard and empty summary. -/
def emptyLbRow : DailySnapshotRow :=
  { snapshot_date := "2024-01-03"
    total_staked := (none : Option ℚ).getD 0
    tvl_usd := (none : Option ℚ).getD 0
    percentage_supply := (none : Option ℚ).getD 0
    active_wallets := 0
    median_stake := 0
    max_stake := 0
    zero_stake_wallets := 0
    tier0 := 0, tier1 := 0, tier2 := 0, tier3 := 0, tier4 := 0 }

/-- Witness for C9: empty leaderboard, empty summary, empty history. -/
theorem empty_leaderboard_spec_witness :
    buildRow [] emptySummary "2024-01-03" = emptyLbRow ∧
    (snapshot_daily [] emptySummary "2024-01-03" []).filter
      (fun x => x.snapshot_date = "2024-01-03") =
      [buildRow [] emptySummary "2024-01-03"] :=
  empty_leaderboard_spec emptySummary "2024-01-03" []

/-! ## C10: tier counts partition the active wallets -/

/-- The classifier never leaves `{0,…,4}`. -/
lemma classify_tier_le_four (x : ℚ) : classify_tier x ≤ 4 := by
  unfold classify_tier
  split_ifs <;> omega

/-- A duplicate-free user list counts as its length. -/
lemma dedupCount_eq_length {l : List String} (h : l.Nodup) :
    dedupCount l = l.length := by
  rw [dedupCount, h.dedup]

/-- Splitting a record list by tier value `0..4` loses no record when all
tiers are in range. -/
lemma tier_filter_sum (l : List WalletStakeRecord) (h : ∀ w ∈ l, w.tier ≤ 4) :
    (l.filter (fun w => w.tier = 0)).length +
      (l.filter (fun w => w.tier = 1)).length +
      (l.filter (fun w => w.tier = 2)).length +
      (l.filter (fun w => w.tier = 3)).length +
      (l.filter (fun w => w.tier = 4)).length = l.length := by
  induction l with
  | nil => simp
  | cons a t ih =>
      have ha := h a (List.mem_cons_self a t)
      have iht := ih (fun w hw => h w (List.mem_cons_of_mem a hw))
      have hcase : a.tier = 0 ∨ a.tier = 1 ∨ a.tier = 2 ∨ a.tier = 3 ∨ a.tier = 4 := by
        omega
      rcases hcase with h0 | h0 | h0 | h0 | h0 <;>
      · simp only [List.filter_cons, h0]
        norm_num
        omega

/-- Core counting fact behind C10: with globally distinct users, the five
per-tier distinct-user counts of the active set sum to its distinct-user
count. -/
lemma tier_sum_of_nodup (df : List WalletStakeRecord)
    (hnodup : (df.map (fun w => w.user)).Nodup)
    (h4 : ∀ w ∈ df, w.tier ≤ 4) :
    tierCount (df.filter (fun w => 0 < w.stakedAmount)) 0 +
      tierCount (df.filter (fun w => 0 < w.stakedAmount)) 1 +
      tierCount (df.filter (fun w => 0 < w.stakedAmount)) 2 +
      tierCount (df.filter (fun w => 0 < w.stakedAmount)) 3 +
      tierCount (df.filter (fun w => 0 < w.stakedAmount)) 4 =
      dedupCount ((df.filter (fun w => 0 < w.stakedAmount)).map (fun w => w.user)) := by
  have hsub1 : List.Sublist (df.filter (fun w => 0 < w.stakedAmount)) df :=
    List.filter_sublist df
  have hcount : ∀ p : WalletStakeRecord → Bool,
      dedupCount (((df.filter (fun w => 0 < w.stakedAmount)).filter p).map
        (fun w => w.user)) =
        ((df.filter (fun w => 0 < w.stakedAmount)).filter p).length := by
    intro p
    have hs : List.Sublist
        (((df.filter (fun w => 0 < w.stakedAmount)).filter p).map (fun w => w.user))
        (df.map (fun w => w.user)) :=
      ((List.filter_sublist _).trans hsub1).map _
    rw [dedupCount, (List.Nodup.sublist hs hnodup).dedup, List.length_map]
  have hcount0 : dedupCount ((df.filter (fun w => 0 < w.stakedAmount)).map
      (fun w => w.user)) = (df.filter (fun w => 0 < w.stakedAmount)).length := by
    have hs : List.Sublist ((df.filter (fun w => 0 < w.stakedAmount)).map (fun w => w.user))
        (df.map (fun w => w.user)) := hsub1.map _
    rw [dedupCount, (List.Nodup.sublist hs hnodup).dedup, List.length_map]
  have h4a : ∀ w ∈ df.filter (fun w => 0 < w.stakedAmount), w.tier ≤ 4 :=
    fun w hw => h4 w (List.mem_of_mem_filter hw)
  unfold tierCount
  rw [hcount, hcount, hcount, hcount, hcount, hcount0]
  exact tier_filter_sum _ h4a

/-- **C10.** For a leaderboard in which each user appears in at most one
record, the recorded snapshot row satisfies
`tier0 + tier1 + tier2 + tier3 + tier4 = active_wallets`: each active wallet
lands in exactly one tier bucket and zero-stake wallets in none. -/
theorem tier_partition_spec (lb : List RawRecord) (s : StakingSummary) (today : String)
    (h : (lb.map RawRecord.user).Nodup) :
    (buildRow lb s today).tier0 + (buildRow lb s today).tier1 +
      (buildRow lb s today).tier2 + (buildRow lb s today).tier3 +
      (buildRow lb s today).tier4 = (buildRow lb s today).active_wallets := by
  by_cases hlb : lb.isEmpty
  · simp [buildRow, hlb]
  · have hmapu : (lb.map normRecord).map (fun w => w.user) = lb.map RawRecord.user := by
      rw [List.map_map]
      rfl
    have hnodup : ((lb.map normRecord).map (fun w => w.user)).Nodup := by
      rw [hmapu]; exact h
    have h4 : ∀ w ∈ lb.map normRecord, w.tier ≤ 4 := by
      intro w hw
      obtain ⟨rr, _, rfl⟩ := List.mem_map.mp hw
      exact classify_tier_le_four _
    have := tier_sum_of_nodup (lb.map normRecord) hnodup h4
    simp only [buildRow, hlb, Bool.false_eq_true, if_false]
    exact this

/-- Witness for C10: three distinct users (one zero-stake). -/
theorem tier_partition_spec_witness :
    (buildRow
        [{ user := "A", stakedAmount := RawVal.str "30000" },
         { user := "B", stakedAmount := RawVal.str "0" },
         { user := "C", stakedAmount := RawVal.str "300000" }]
        { totalStaked := none, tvlUsd := none, percentageOfCurrentSupply := none }
        "2024-01-01").tier0 +
    (buildRow
        [{ user := "A", stakedAmount := RawVal.str "30000" },
         { user := "B", stakedAmount := RawVal.str "0" },
         { user := "C", stakedAmount := RawVal.str "300000" }]
        { totalStaked := none, tvlUsd := none, percentageOfCurrentSupply := none }
        "2024-01-01").tier1 +
    (buildRow
        [{ user := "A", stakedAmount := RawVal.str "30000" },
         { user := "B", stakedAmount := RawVal.str "0" },
         { user := "C", stakedAmount := RawVal.str "300000" }]
        { totalStaked := none, tvlUsd := none, percentageOfCurrentSupply := none }
        "2024-01-01").tier2 +
    (buildRow
        [{ user := "A", stakedAmount := RawVal.str "30000" },
         { user := "B", stakedAmount := RawVal.str "0" },
         { user := "C", stakedAmount := RawVal.str "300000" }]
        { totalStaked := none, tvlUsd := none, percentageOfCurrentSupply := none }
        "2024-01-01").tier3 +
    (buildRow
        [{ user := "A", stakedAmount := RawVal.str "30000" },
         { user := "B", stakedAmount := RawVal.str "0" },
         { user := "C", stakedAmount := RawVal.str "300000" }]
        { totalStaked := none, tvlUsd := none, percentageOfCurrentSupply := none }
        "2024-01-01").tier4 =
    (buildRow
        [{ user := "A", stakedAmount := RawVal.str "30000" },
         { user := "B", stakedAmount := RawVal.str "0" },
         { user := "C", stakedAmount := RawVal.str "300000" }]
        { totalStaked := none, tvlUsd := none, percentageOfCurrentSupply := none }
        "2024-01-01").active_wallets :=
  tier_partition_spec
    [{ user := "A", stakedAmount := RawVal.str "30000" },
     { user := "B", stakedAmount := RawVal.str "0" },
     { user := "C", stakedAmount := RawVal.str "300000" }]
    { totalStaked := none, tvlUsd := none, percentageOfCurrentSupply := none }
    "2024-01-01" (by decide)

/-! ## The history series builder (`load_daily_history`, app lines 68-87) -/

/-- The six columns the source derives day-over-day deltas for. -/
def sixCols : List String :=
  ["total_staked", "tvl_usd", "active_wallets", "percentage_supply",
   "median_stake", "max_stake"]

/-- The three columns the source derives 7-row moving averages for. -/
def maCols : List String := ["total_staked", "active_wallets", "tvl_usd"]

/-- All numeric base columns of `daily.csv`. -/
def numericCols : List String :=
  ["total_staked", "tvl_usd", "percentage_supply", "active_wallets",
   "median_stake", "max_stake", "zero_stake_wallets",
   "tier0", "tier1", "tier2", "tier3", "tier4"]

/-- Numeric cell of a history row under a base-column name (counts are read
back from CSV as numbers). -/
def cellValue (r : DailySnapshotRow) (name : String) : ℚ :=
  if name = "total_staked" then r.total_staked
  else if name = "tvl_usd" then r.tvl_usd
  else if name = "percentage_supply" then r.percentage_supply
  else if name = "active_wallets" then (r.active_wallets : ℚ)
  else if name = "median_stake" then r.median_stake
  else if name = "max_stake" then r.max_stake
  else if name = "zero_stake_wallets" then (r.zero_stake_wallets : ℚ)
  else if name = "tier0" then (r.tier0 : ℚ)
  else if name = "tier1" then (r.tier1 : ℚ)
  else if name = "tier2" then (r.tier2 : ℚ)
  else if name = "tier3" then (r.tier3 : ℚ)
  else if name = "tier4" then (r.tier4 : ℚ)
  else 0

/-- `series.diff()`: position `0` is missing, position `i > 0` holds
`series[i] - series[i-1]`. -/
def diffCol (l : List ℚ) : List (Option ℚ) :=
  (List.range l.length).map (fun i =>
    if i = 0 then none else some (l.getD i 0 - l.getD (i - 1) 0))

/-- `series.rolling(7).mean()`: positions `0..5` are missing, position
`i ≥ 6` holds the mean of the trailing window `series[i-6..i]`. -/
def roll7 (l : List ℚ) : List (Option ℚ) :=
  (List.range l.length).map (fun i =>
    if i + 1 < 7 then none else some (((l.drop (i + 1 - 7)).take 7).sum / 7))

/-- The derived-column view produced by `load_daily_history`: the history is
sorted by date, `_dod` columns exist for the six columns of the source's
loop, `_7dma` columns exist for exactly `total_staked`, `active_wallets`
and `tvl_usd`, base numeric columns pass through, and nothing else exists. -/
def load_daily_history (rows : List DailySnapshotRow) (name : String) :
    Option (List (Option ℚ)) :=
  let hist := sortByDate rows
  if name = "total_staked_dod" then
    some (diffCol (hist.map (fun r => cellValue r "total_staked")))
  else if name = "tvl_usd_dod" then
    some (diffCol (hist.map (fun r => cellValue r "tvl_usd")))
  else if name = "active_wallets_dod" then
    some (diffCol (hist.map (fun r => cellValue r "active_wallets")))
  else if name = "percentage_supply_dod" then
    some (diffCol (hist.map (fun r => cellValue r "percentage_supply")))
  else if name = "median_stake_dod" then
    some (diffCol (hist.map (fun r => cellValue r "median_stake")))
  else if name = "max_stake_dod" then
    some (diffCol (hist.map (fun r => cellValue r "max_stake")))
  else if name = "total_staked_7dma" then
    some (roll7 (hist.map (fun r => cellValue r "total_staked")))
  else if name = "active_wallets_7dma" then
    some (roll7 (hist.map (fun r => cellValue r "active_wallets")))
  else if name = "tvl_usd_7dma" then
    some (roll7 (hist.map (fun r => cellValue r "tvl_usd")))
  else if numericCols.contains name then
    some ((hist.map (fun r => cellValue r name)).map some)
  else none

lemma diffCol_length (l : List ℚ) : (diffCol l).length = l.length := by
  simp [diffCol]

lemma diffCol_get (l : List ℚ) (i : ℕ) (h : i < l.length) :
    (diffCol l)[i]? =
      some (if i = 0 then none else some (l.getD i 0 - l.getD (i - 1) 0)) := by
  simp [diffCol, List.getElem?_map, List.getElem?_range, h]

lemma roll7_length (l : List ℚ) : (roll7 l).length = l.length := by
  simp [roll7]

lemma roll7_get (l : List ℚ) (i : ℕ) (h : i < l.length) :
    (roll7 l)[i]? =
      some (if i + 1 < 7 then none
        else some (((l.drop (i + 1 - 7)).take 7).sum / 7)) := by
  simp [roll7, List.getElem?_map, List.getElem?_range, h]

lemma roll7_none_iff (l : List ℚ) (i : ℕ) (h : i < l.length) :
    (roll7 l)[i]? = some none ↔ i + 1 < 7 := by
  rw [roll7_get l i h]
  by_cases h7 : i + 1 < 7
  · simp [h7]
  · simp [h7]

lemma roll7_all_none (l : List ℚ) (h : l.length < 7) :
    ∀ o ∈ roll7 l, o = none := by
  intro o ho
  simp only [roll7, List.mem_map, List.mem_range] at ho
  obtain ⟨i, hi, rfl⟩ := ho
  rw [if_pos (by omega)]

/-- Length of a sorted-and-projected base column. -/
lemma base_col_length (rows : List DailySnapshotRow) (c : String) :
    ((sortByDate rows).map (fun r => cellValue r c)).length = rows.length := by
  simp [sortByDate, List.length_insertionSort]

/-! ## C6: derived history columns -/

/-- A one-row example history. -/
def c6ExampleHist : List DailySnapshotRow :=
  [{ snapshot_date := "2024-01-01", total_staked := 10, tvl_usd := 20,
     percentage_supply := 1, active_wallets := 3, median_stake := 4,
     max_stake := 5, zero_stake_wallets := 0,
     tier0 := 1, tier1 := 1, tier2 := 1, tier3 := 0, tier4 := 0 }]

/-- **C6 counterexample.** `median_stake` is one of the six claimed columns,
yet the builder produces no `median_stake_7dma` column: the claim that every
one of the six columns gets a 7-row moving average fails on this concrete
history. -/
theorem history_series_counterexample :
    "median_stake" ∈ sixCols ∧
    load_daily_history c6ExampleHist ("median_stake" ++ "_7dma") = none := by
  constructor
  · decide
  · rfl

/-- **C6 (amended).** Over any loaded history: every one of the six numeric
columns gets a day-over-day delta column (`row[i] - row[i-1]`, missing for the
first row); exactly `total_staked`, `active_wallets` and `tvl_usd` also get a
7-row trailing moving-average column, missing at every position until 7 rows
are in the window — in particular, with fewer than 7 rows it is missing at
every row — and holding the full 7-row mean elsewhere; the remaining three of
the six columns get no moving-average column. -/
theorem history_series_spec (rows : List DailySnapshotRow) :
    (∀ c, c ∈ sixCols → ∃ col, load_daily_history rows (c ++ "_dod") = some col ∧
      col.length = rows.length ∧
      ∀ i, i < rows.length → col[i]? =
        some (if i = 0 then none
          else some (((sortByDate rows).map (fun r => cellValue r c)).getD i 0 -
            ((sortByDate rows).map (fun r => cellValue r c)).getD (i - 1) 0))) ∧
    (∀ c, c ∈ maCols → ∃ col, load_daily_history rows (c ++ "_7dma") = some col ∧
      col.length = rows.length ∧
      (∀ i, i < rows.length → (col[i]? = some none ↔ i + 1 < 7)) ∧
      (∀ i, i < rows.length → ¬(i + 1 < 7) → col[i]? =
        some (some (((((sortByDate rows).map (fun r => cellValue r c)).drop
          (i + 1 - 7)).take 7).sum / 7))) ∧
      (rows.length < 7 → ∀ o ∈ col, o = none)) ∧
    (∀ c, c ∈ sixCols → c ∉ maCols →
      load_daily_history rows (c ++ "_7dma") = none) := by
  have hdod : ∀ base : List ℚ, base.length = rows.length →
      (diffCol base).length = rows.length ∧
      (∀ i, i < rows.length → (diffCol base)[i]? =
        some (if i = 0 then none else some (base.getD i 0 - base.getD (i - 1) 0))) := by
    intro base hb
    exact ⟨by rw [diffCol_length, hb], fun i hi => diffCol_get base i (by omega)⟩
  have hma : ∀ base : List ℚ, base.length = rows.length →
      (roll7 base).length = rows.length ∧
      (∀ i, i < rows.length → ((roll7 base)[i]? = some none ↔ i + 1 < 7)) ∧
      (∀ i, i < rows.length → ¬(i + 1 < 7) → (roll7 base)[i]? =
        some (some (((base.drop (i + 1 - 7)).take 7).sum / 7))) ∧
      (rows.length < 7 → ∀ o ∈ roll7 base, o = none) := by
    intro base hb
    refine ⟨by rw [roll7_length, hb], fun i hi => roll7_none_iff base i (by omega),
      fun i hi h7 => ?_, fun h7 => roll7_all_none base (by omega)⟩
    rw [roll7_get base i (by omega), if_neg h7]
  refine ⟨?_, ?_, ?_⟩
  · intro c hc
    fin_cases hc <;>
      exact ⟨_, rfl, (hdod _ (base_col_length rows _)).1,
        (hdod _ (base_col_length rows _)).2⟩
  · intro c hc
    fin_cases hc <;>
      exact ⟨_, rfl, (hma _ (base_col_length rows _)).1,
        (hma _ (base_col_length rows _)).2.1,
        (hma _ (base_col_length rows _)).2.2.1,
        (hma _ (base_col_length rows _)).2.2.2⟩
  · intro c hc hcm
    fin_cases hc
    · exact absurd (by decide) hcm
    · exact absurd (by decide) hcm
    · exact absurd (by decide) hcm
    · rfl
    · rfl
    · rfl

/-- Witness for C6: the `total_staked_dod` column over the one-row example. -/
theorem history_series_spec_witness :
    ∃ col, load_daily_history c6ExampleHist ("total_staked" ++ "_dod") = some col ∧
      col.length = c6ExampleHist.length ∧
      ∀ i, i < c6ExampleHist.length → col[i]? =
        some (if i = 0 then none
          else some (((sortByDate c6ExampleHist).map
              (fun r => cellValue r "total_staked")).getD i 0 -
            ((sortByDate c6ExampleHist).map
              (fun r => cellValue r "total_staked")).getD (i - 1) 0)) :=
  (history_series_spec c6ExampleHist).1 "total_staked" (by decide)

/-! ## The latest-vs-previous DoD metrics (app lines 386-407) -/

/-- A row of the selected time-series window as read back from CSV: each core
field may be missing (`NaN`). -/
structure ViewRow where
  snapshot_date : Option String
  total_staked : Option ℚ
  active_wallets : Option ℚ
  tvl_usd : Option ℚ
deriving DecidableEq

/-- A row survives `dropna(subset=core_cols)` iff no core field is missing. -/
def isValidRow (r : ViewRow) : Bool :=
  r.snapshot_date.isSome && r.total_staked.isSome &&
    r.active_wallets.isSome && r.tvl_usd.isSome

/-- `valid = view.dropna(subset=core_cols)`. -/
def validRows (view : List ViewRow) : List ViewRow :=
  view.filter isValidRow

/-- Python `int()` on a rational: truncation toward zero. -/
def truncQ (q : ℚ) : ℤ := q.num / q.den

/-- The DoD-metric step: with no valid row nothing is reported (the source
shows a "no valid rows" caption instead); with one valid row the three deltas
are zero; with two or more they are latest-minus-previous over the valid
rows (`iloc[-1]` and `iloc[-2]`), the wallet delta truncated to an integer. -/
def dodDeltas (view : List ViewRow) : Option (ℚ × ℤ × ℚ) :=
  match (validRows view).reverse with
  | [] => none
  | [_] => some (0, 0, 0)
  | latest :: prev :: _ =>
      some (latest.total_staked.getD 0 - prev.total_staked.getD 0,
        truncQ (latest.active_wallets.getD 0 - prev.active_wallets.getD 0),
        latest.tvl_usd.getD 0 - prev.tvl_usd.getD 0)

/-! ## C8: short-window delta reporting -/

/-- A window row with a missing `snapshot_date`, dropped by `dropna`. -/
def c8MissingRow : ViewRow :=
  { snapshot_date := none, total_staked := some 1,
    active_wallets := some 1, tvl_usd := some 1 }

/-- First valid example window row. -/
def c8Row1 : ViewRow :=
  { snapshot_date := some "2024-01-01", total_staked := some 10,
    active_wallets := some 3, tvl_usd := some 20 }

/-- Second valid example window row. -/
def c8Row2 : ViewRow :=
  { snapshot_date := some "2024-01-02", total_staked := some 16,
    active_wallets := some 5, tvl_usd := some 18 }

/-- **C8 counterexample.** A window whose single row is missing a core field
has zero valid rows (fewer than 2), yet the deltas are *not* reported as
zero — no deltas are reported at all. -/
theorem dod_deltas_counterexample :
    (validRows [c8MissingRow]).length < 2 ∧
    dodDeltas [c8MissingRow] ≠ some (0, 0, 0) := by
  constructor
  · decide
  · decide

/-- **C8 (amended).** With zero valid rows in the window no deltas are
reported (a notice is shown instead); with exactly one valid row the three
deltas are reported as zero; with two or more valid rows each delta is the
latest valid row's value minus the previous valid row's value (the wallet
delta truncated to an integer). -/
theorem dod_deltas_spec (view : List ViewRow) :
    ((validRows view).length = 0 → dodDeltas view = none) ∧
    ((validRows view).length = 1 → dodDeltas view = some (0, 0, 0)) ∧
    (∀ latest prev rest, (validRows view).reverse = latest :: prev :: rest →
      dodDeltas view =
        some (latest.total_staked.getD 0 - prev.total_staked.getD 0,
          truncQ (latest.active_wallets.getD 0 - prev.active_wallets.getD 0),
          latest.tvl_usd.getD 0 - prev.tvl_usd.getD 0)) := by
  refine ⟨fun h0 => ?_, fun h1 => ?_, fun latest prev rest hr => ?_⟩
  · have : (validRows view).reverse = [] := by
      rw [List.reverse_eq_nil_iff, ← List.length_eq_zero]
      exact h0
    rw [dodDeltas, this]
  · have hlen : (validRows view).reverse.length = 1 := by
      rw [List.length_reverse]; exact h1
    obtain ⟨a, ha⟩ := List.length_eq_one.mp hlen
    rw [dodDeltas, ha]
  · rw [dodDeltas, hr]

/-- Witness for C8: a two-valid-row window. -/
theorem dod_deltas_spec_witness :
    dodDeltas [c8Row1, c8Row2] =
      some (c8Row2.total_staked.getD 0 - c8Row1.total_staked.getD 0,
        truncQ (c8Row2.active_wallets.getD 0 - c8Row1.active_wallets.getD 0),
        c8Row2.tvl_usd.getD 0 - c8Row1.tvl_usd.getD 0) :=
  (dod_deltas_spec [c8Row1, c8Row2]).2.2 c8Row2 c8Row1 [] (by decide)

end KongDash
